import Mathlib

/-!
# rpg-game: the outside map (`src/App.js`, component `OutsideMap`)

A shallow embedding of the movement / interaction logic of `OutsideMap`.

Modelling conventions.

* JavaScript numbers that hold pixel positions are integers (`Int`, without
  the precision limit of doubles); the quotients `pos.x / TILE` are exact
  rationals (`ℚ`), so a position that is not a multiple of `TILE` has a
  fractional tile coordinate, as in the source.
* The five `useState` cells form a `State`.  `pos`, `dir`, `frame`, `moving`
  and `dialog` are `const` bindings of one call of the component function, so
  a function defined in the component body (`move`, `onKey`, `goToBuilding`)
  is a closure over the values the cells had in the render that created it:
  it *reads* those values (parameter `r`, "the render") and *writes* through
  the setters to the live cells (the `store` of a `World`).
* Which render a handler belongs to: a button's `onClick` is created by every
  render, so a click runs `goToBuilding` of the latest render, and the `async`
  body it starts keeps calling the `move` of that same render; the `keydown`
  listener is installed by `useEffect(..., [pos, navigate])`, so it is
  replaced only by a render in which `pos` is a new object, that is after a
  `setPos` (field `keyRender`).
* `setTimeout` callbacks are kept in the world as pending work and are run by
  explicit events, so real time is abstracted to the order of events.
* `navigate` is the router's function; calls to it are logged in `navs`
  (the unmounting of the component that follows a navigation is not
  modelled).
-/

namespace RpgGame

/-- `const TILE = 48`. -/
def TILE : Int := 48

/-- The strings `"up"`, `"down"`, `"left"`, `"right"` passed as `direction`. -/
inductive Dir where
  | up | down | left | right
  deriving DecidableEq, Repr

/-- The object `{ x, y }` held in the `pos` cell. -/
structure Pos where
  x : Int
  y : Int
  deriving DecidableEq, Repr

/-- The `useState` cells of `OutsideMap`: `pos`, `dir`, `frame`, `moving`, `dialog`. -/
structure State where
  pos : Pos
  dir : Dir
  frame : Nat
  moving : Bool
  dialog : Option String
  deriving DecidableEq, Repr

/-- The callback given to `setTimeout(..., STEP_TIME)` inside `move`; it
captured `newX` and `newY`. -/
structure Completion where
  newX : Int
  newY : Int
  deriving DecidableEq, Repr

/-- One entry `[dx, dy, direction]` of the `steps` array of `goToBuilding`. -/
structure Step where
  dx : Int
  dy : Int
  direction : Dir
  deriving DecidableEq, Repr

/-- The suspended `async` body of `goToBuilding`: the render whose `move` it
calls, the steps of the `for` loop not yet executed, and the route. -/
structure Walk where
  render : State
  steps : List Step
  route : String
  deriving DecidableEq, Repr

/-- The running component: live cells, the render whose `onKey` is the
registered `keydown` listener, pending `move` timeouts, suspended autowalk
runs, and the log of `navigate` calls. -/
structure World where
  store : State
  keyRender : State
  pending : List Completion
  walks : List Walk
  navs : List String
  deriving DecidableEq, Repr

/-- The initial values given to `useState`. -/
def initialState : State :=
  { pos := ⟨5 * TILE, 6 * TILE⟩, dir := Dir.down, frame := 0, moving := false, dialog := none }

/-- The component after its first render and effect. -/
def initialWorld : World :=
  { store := initialState, keyRender := initialState, pending := [], walks := [], navs := [] }

/-- An entry of the `npcs` array. -/
structure Npc where
  id : String
  x : Int
  y : Int
  text : String
  deriving DecidableEq, Repr

/-- The `npcs` array. -/
def npcs : List Npc :=
  [ { id := "n1", x := 4 * TILE, y := 3 * TILE, text := "Hello traveler! Welcome." },
    { id := "n2", x := 9 * TILE, y := 4 * TILE, text := "The market opens at dawn." } ]

/-- `navigate(route)`. -/
def navigate (route : String) (w : World) : World :=
  { w with navs := w.navs ++ [route] }

/-- `setDialog(v)`. -/
def setDialog (v : Option String) (w : World) : World :=
  { w with store := { w.store with dialog := v } }

/-- `move(dx, dy, direction)` of render `r`: the guard reads `r.moving`, the
target reads `r.pos`; the three setters write the live cells and the timeout
is scheduled. -/
def move (r : State) (dx dy : Int) (direction : Dir) (w : World) : World :=
  if r.moving then w
  else
    { w with
      store := { w.store with dir := direction, moving := true, frame := 1 }
      pending := w.pending ++ [⟨r.pos.x + dx * TILE, r.pos.y + dy * TILE⟩] }

/-- The body of the timeout scheduled by `move`:
`setPos({ x: newX, y: newY }); setFrame(0); setMoving(false)`. -/
def complete (c : Completion) (s : State) : State :=
  { s with pos := ⟨c.newX, c.newY⟩, frame := 0, moving := false }

/-- The interval callback `setFrame((p) => (p + 1) % 4)`. -/
def animTick (s : State) : State :=
  { s with frame := (s.frame + 1) % 4 }

/-- The `npcs.forEach` of the Enter branch. -/
def npcCheck (r : State) (w : World) : World :=
  npcs.foldl
    (fun acc n =>
      if |r.pos.x - n.x| ≤ TILE ∧ |r.pos.y - n.y| ≤ TILE then setDialog (some n.text) acc
      else acc)
    w

/-- The Enter branch of `onKey`: the four door tests, then the NPC test. -/
def interact (r : State) (w : World) : World :=
  let tx : ℚ := (r.pos.x : ℚ) / (TILE : ℚ)
  let ty : ℚ := (r.pos.y : ℚ) / (TILE : ℚ)
  let w := if tx = 2 ∧ ty = 3 then navigate "/building-1" w else w
  let w := if tx = 8 ∧ ty = 3 then navigate "/building-2" w else w
  let w := if tx = 2 ∧ ty = 9 then navigate "/building-3" w else w
  let w := if tx = 8 ∧ ty = 9 then navigate "/building-4" w else w
  npcCheck r w

/-- The `keydown` listener `onKey` created by render `r`; `key` is `e.key`. -/
def onKey (r : State) (key : String) (w : World) : World :=
  let w := if key = "ArrowUp" then move r 0 (-1) Dir.up w else w
  let w := if key = "ArrowDown" then move r 0 1 Dir.down w else w
  let w := if key = "ArrowLeft" then move r (-1) 0 Dir.left w else w
  let w := if key = "ArrowRight" then move r 1 0 Dir.right w else w
  let w := if key = "Enter" then interact r w else w
  let w := if key = "Escape" then setDialog none w else w
  w

/-- The variables of the `while` loop of `goToBuilding`. -/
structure LoopState where
  cx : ℚ
  cy : ℚ
  steps : List Step
  deriving DecidableEq, Repr

/-- The loop test `cx !== tx || cy !== ty`. -/
def loopCond (tx ty : ℚ) (s : LoopState) : Bool :=
  decide (s.cx ≠ tx) || decide (s.cy ≠ ty)

/-- One pass through the body of the `while` loop (an `if / else if` chain of
four branches; when none applies nothing changes). -/
def loopBody (tx ty : ℚ) (s : LoopState) : LoopState :=
  if s.cx < tx then { s with cx := s.cx + 1, steps := s.steps ++ [⟨1, 0, Dir.right⟩] }
  else if s.cx > tx then { s with cx := s.cx - 1, steps := s.steps ++ [⟨-1, 0, Dir.left⟩] }
  else if s.cy < ty then { s with cy := s.cy + 1, steps := s.steps ++ [⟨0, 1, Dir.down⟩] }
  else if s.cy > ty then { s with cy := s.cy - 1, steps := s.steps ++ [⟨0, -1, Dir.up⟩] }
  else s

/-- The `while` loop, with a bound on the number of passes; `none` when the
bound is exhausted before the test fails. -/
def whileLoop (tx ty : ℚ) : Nat → LoopState → Option LoopState
  | 0, s => if loopCond tx ty s then none else some s
  | fuel + 1, s => if loopCond tx ty s then whileLoop tx ty fuel (loopBody tx ty s) else some s

/-- The first half of `goToBuilding`: `tx`, `ty`, `cx`, `cy` and the loop
that fills `steps`. -/
def buildSteps (r : State) (bx bY : Int) (fuel : Nat) : Option (List Step) :=
  let tx : ℚ := (bx : ℚ)
  let ty : ℚ := (bY : ℚ) - 1
  let start : LoopState := { cx := (r.pos.x : ℚ) / (TILE : ℚ), cy := (r.pos.y : ℚ) / (TILE : ℚ), steps := [] }
  (whileLoop tx ty fuel start).map LoopState.steps

/-- Resuming a suspended autowalk body: the next pass of the `for` loop calls
`move` of the captured render and suspends again; after the loop,
`navigate(route)`. -/
def walkResume (k : Walk) (w : World) : World × Option Walk :=
  match k.steps with
  | [] => (navigate k.route w, none)
  | s :: rest => (move k.render s.dx s.dy s.direction w, some { k with steps := rest })

/-- `goToBuilding(bx, by, route)` of render `r`: builds `steps`, then starts
the `async` body, which runs up to its first `await` (the first `move` when
there is a step) and is suspended. -/
def goToBuilding (r : State) (bx bY : Int) (route : String) (fuel : Nat) (w : World) : Option World :=
  match buildSteps r bx bY fuel with
  | none => none
  | some [] => some { w with walks := w.walks ++ [{ render := r, steps := [], route := route }] }
  | some (s :: rest) =>
      some { move r s.dx s.dy s.direction w with
             walks := w.walks ++ [{ render := r, steps := rest, route := route }] }

/-- The four building buttons: the arguments of the `goToBuilding` calls in
their `onClick` handlers. -/
def buildingButtons : List (Int × Int × String) :=
  [(2, 3, "/building-1"), (8, 3, "/building-2"), (2, 9, "/building-3"), (8, 9, "/building-4")]

/-- What can happen to the mounted component. -/
inductive Event where
  /-- A `keydown` event with this `e.key` reaches the registered listener. -/
  | keydown (key : String)
  /-- A click on the `i`-th building button (loop bound `fuel`). -/
  | clickBuilding (i : Nat) (fuel : Nat)
  /-- A click on the `i`-th NPC: `setDialog(n.text)`. -/
  | clickNpc (i : Nat)
  /-- An interval callback of a step in flight runs. -/
  | interval
  /-- The oldest pending `move` timeout fires (all have the same delay, so
  they fire in the order they were scheduled).  `batched` tells whether the
  three setter calls are rendered together or one by one. -/
  | timeout (batched : Bool)
  /-- The `j`-th suspended autowalk body is resumed. -/
  | resume (j : Nat)
  deriving DecidableEq, Repr

/-- One event.  The listener is the `onKey` of `keyRender`: the effect has the
dependencies `[pos, navigate]`, so it is registered again only by a render
that follows `setPos`; a button's `onClick` is the one of the latest render. -/
def step (e : Event) (w : World) : Option World :=
  match e with
  | Event.keydown key => some (onKey w.keyRender key w)
  | Event.clickBuilding i fuel =>
      match buildingButtons.get? i with
      | none => none
      | some (bx, bY, route) => goToBuilding w.store bx bY route fuel w
  | Event.clickNpc i =>
      match npcs.get? i with
      | none => none
      | some n => some (setDialog (some n.text) w)
  | Event.interval =>
      match w.pending with
      | [] => none
      | _ :: _ => some { w with store := animTick w.store }
  | Event.timeout batched =>
      match w.pending with
      | [] => none
      | c :: rest =>
          some { w with
                 store := complete c w.store
                 keyRender :=
                   if batched then complete c w.store
                   else { w.store with pos := ⟨c.newX, c.newY⟩ }
                 pending := rest }
  | Event.resume j =>
      match w.walks.get? j with
      | none => none
      | some k =>
          match walkResume k w with
          | (w1, none) => some { w1 with walks := w1.walks.eraseIdx j }
          | (w1, some k1) => some { w1 with walks := w1.walks.set j k1 }

/-- A sequence of events, from left to right. -/
def runEvents : List Event → World → Option World
  | [], w => some w
  | e :: es, w =>
      match step e w with
      | none => none
      | some w1 => runEvents es w1

/-- A position whose coordinates are integer multiples of `TILE`. -/
def TileAligned (p : Pos) : Prop := TILE ∣ p.x ∧ TILE ∣ p.y

/-- Every position held anywhere in the world is tile aligned: the live cell,
the render of the registered listener, the targets of the pending timeouts
and the renders captured by the suspended autowalk runs. -/
def Aligned (w : World) : Prop :=
  TileAligned w.store.pos ∧ TileAligned w.keyRender.pos ∧
    (∀ c ∈ w.pending, TILE ∣ c.newX ∧ TILE ∣ c.newY) ∧
    (∀ k ∈ w.walks, TileAligned k.render.pos)

/-! ## The path-building loop -/

theorem loopCond_int (tx ty a b : Int) (acc : List Step) :
    loopCond (tx : ℚ) (ty : ℚ) ⟨(a : ℚ), (b : ℚ), acc⟩ = true ↔ a ≠ tx ∨ b ≠ ty := by
  simp [loopCond]

theorem loopBody_int (tx ty a b : Int) (acc : List Step) :
    loopBody (tx : ℚ) (ty : ℚ) ⟨(a : ℚ), (b : ℚ), acc⟩ =
      if a < tx then ⟨((a + 1 : Int) : ℚ), (b : ℚ), acc ++ [⟨1, 0, Dir.right⟩]⟩
      else if tx < a then ⟨((a - 1 : Int) : ℚ), (b : ℚ), acc ++ [⟨-1, 0, Dir.left⟩]⟩
      else if b < ty then ⟨(a : ℚ), ((b + 1 : Int) : ℚ), acc ++ [⟨0, 1, Dir.down⟩]⟩
      else if ty < b then ⟨(a : ℚ), ((b - 1 : Int) : ℚ), acc ++ [⟨0, -1, Dir.up⟩]⟩
      else ⟨(a : ℚ), (b : ℚ), acc⟩ := by
  simp only [loopBody, Int.cast_lt, gt_iff_lt, Int.cast_add, Int.cast_sub, Int.cast_one]

theorem replicate_hStep_succ (a tx : Int) (h : a < tx) :
    List.replicate (tx - a).natAbs (if a < tx then (⟨1, 0, Dir.right⟩ : Step) else ⟨-1, 0, Dir.left⟩) =
      (⟨1, 0, Dir.right⟩ : Step) :: List.replicate (tx - (a + 1)).natAbs (if (a + 1) < tx then (⟨1, 0, Dir.right⟩ : Step) else ⟨-1, 0, Dir.left⟩) := by
  have e : (tx - a).natAbs = (tx - (a + 1)).natAbs + 1 := by omega
  rw [e, List.replicate_succ]
  by_cases h1 : a + 1 < tx
  · simp [h, h1]
  · have e0 : (tx - (a + 1)).natAbs = 0 := by omega
    simp [h, e0]

theorem replicate_hStep_pred (a tx : Int) (h : tx < a) :
    List.replicate (tx - a).natAbs (if a < tx then (⟨1, 0, Dir.right⟩ : Step) else ⟨-1, 0, Dir.left⟩) =
      (⟨-1, 0, Dir.left⟩ : Step) :: List.replicate (tx - (a - 1)).natAbs (if (a - 1) < tx then (⟨1, 0, Dir.right⟩ : Step) else ⟨-1, 0, Dir.left⟩) := by
  have e : (tx - a).natAbs = (tx - (a - 1)).natAbs + 1 := by omega
  have n1 : ¬ a < tx := by omega
  have n2 : ¬ a - 1 < tx := by omega
  rw [e, List.replicate_succ]
  simp [n1, n2]

theorem replicate_vStep_succ (b ty : Int) (h : b < ty) :
    List.replicate (ty - b).natAbs (if b < ty then (⟨0, 1, Dir.down⟩ : Step) else ⟨0, -1, Dir.up⟩) =
      (⟨0, 1, Dir.down⟩ : Step) :: List.replicate (ty - (b + 1)).natAbs (if (b + 1) < ty then (⟨0, 1, Dir.down⟩ : Step) else ⟨0, -1, Dir.up⟩) := by
  have e : (ty - b).natAbs = (ty - (b + 1)).natAbs + 1 := by omega
  rw [e, List.replicate_succ]
  by_cases h1 : b + 1 < ty
  · simp [h, h1]
  · have e0 : (ty - (b + 1)).natAbs = 0 := by omega
    simp [h, e0]

theorem replicate_vStep_pred (b ty : Int) (h : ty < b) :
    List.replicate (ty - b).natAbs (if b < ty then (⟨0, 1, Dir.down⟩ : Step) else ⟨0, -1, Dir.up⟩) =
      (⟨0, -1, Dir.up⟩ : Step) :: List.replicate (ty - (b - 1)).natAbs (if (b - 1) < ty then (⟨0, 1, Dir.down⟩ : Step) else ⟨0, -1, Dir.up⟩) := by
  have e : (ty - b).natAbs = (ty - (b - 1)).natAbs + 1 := by omega
  have n1 : ¬ b < ty := by omega
  have n2 : ¬ b - 1 < ty := by omega
  rw [e, List.replicate_succ]
  simp [n1, n2]

/-- On integer tile coordinates the loop, given at least the Manhattan
distance as bound, stops at the target with the horizontal steps followed by
the vertical steps appended. -/
theorem whileLoop_int (tx ty : Int) :
    ∀ (fuel : Nat) (a b : Int) (acc : List Step),
      (tx - a).natAbs + (ty - b).natAbs ≤ fuel →
      whileLoop (tx : ℚ) (ty : ℚ) fuel ⟨(a : ℚ), (b : ℚ), acc⟩ =
        some ⟨(tx : ℚ), (ty : ℚ),
          acc ++ (List.replicate (tx - a).natAbs (if a < tx then (⟨1, 0, Dir.right⟩ : Step) else ⟨-1, 0, Dir.left⟩) ++
                  List.replicate (ty - b).natAbs (if b < ty then (⟨0, 1, Dir.down⟩ : Step) else ⟨0, -1, Dir.up⟩))⟩ := by
  intro fuel
  induction fuel with
  | zero =>
      intro a b acc h
      have ha : a = tx := by omega
      have hb : b = ty := by omega
      subst ha; subst hb
      simp [whileLoop, loopCond]
  | succ n ih =>
      intro a b acc h
      by_cases hc : a ≠ tx ∨ b ≠ ty
      · have hcond := (loopCond_int tx ty a b acc).2 hc
        rw [whileLoop, if_pos hcond, loopBody_int]
        by_cases h1 : a < tx
        · rw [if_pos h1, ih (a + 1) b _ (by omega), replicate_hStep_succ a tx h1]
          simp
        · rw [if_neg h1]
          by_cases h2 : tx < a
          · rw [if_pos h2, ih (a - 1) b _ (by omega), replicate_hStep_pred a tx h2]
            simp
          · rw [if_neg h2]
            have ha : a = tx := by omega
            subst ha
            by_cases h3 : b < ty
            · rw [if_pos h3, ih a (b + 1) _ (by omega), replicate_vStep_succ b ty h3]
              simp
            · rw [if_neg h3]
              have h4 : ty < b := by omega
              rw [if_pos h4, ih a (b - 1) _ (by omega), replicate_vStep_pred b ty h4]
              simp
      · have ha : a = tx := by omega
        have hb : b = ty := by omega
        subst ha; subst hb
        simp [whileLoop, loopCond]

/-- The step list of `goToBuilding` from the tile `(a, b)`. -/
theorem buildSteps_aligned (r : State) (a b bx bY : Int) (fuel : Nat)
    (hx : r.pos.x = a * TILE) (hy : r.pos.y = b * TILE)
    (hf : (bx - a).natAbs + (bY - 1 - b).natAbs ≤ fuel) :
    buildSteps r bx bY fuel =
      some (List.replicate (bx - a).natAbs (if a < bx then (⟨1, 0, Dir.right⟩ : Step) else ⟨-1, 0, Dir.left⟩) ++
            List.replicate (bY - 1 - b).natAbs (if b < (bY - 1) then (⟨0, 1, Dir.down⟩ : Step) else ⟨0, -1, Dir.up⟩)) := by
  have ex : (r.pos.x : ℚ) / (TILE : ℚ) = (a : ℚ) := by
    rw [hx]; simp only [TILE]; push_cast; field_simp
  have ey : (r.pos.y : ℚ) / (TILE : ℚ) = (b : ℚ) := by
    rw [hy]; simp only [TILE]; push_cast; field_simp
  have et : (bY : ℚ) - 1 = ((bY - 1 : Int) : ℚ) := by push_cast; ring
  simp only [buildSteps]
  rw [ex, ey, et, whileLoop_int bx (bY - 1) fuel a b [] hf]
  simp

/-! ## Tile alignment -/

theorem aligned_initialWorld : Aligned initialWorld := by
  refine ⟨?_, ?_, ?_, ?_⟩
  · exact ⟨Dvd.intro_left 5 rfl, Dvd.intro_left 6 rfl⟩
  · exact ⟨Dvd.intro_left 5 rfl, Dvd.intro_left 6 rfl⟩
  · intro c hc; simp [initialWorld] at hc
  · intro k hk; simp [initialWorld] at hk

theorem aligned_move (r : State) (dx dy : Int) (d : Dir) (w : World)
    (hr : TileAligned r.pos) (hw : Aligned w) : Aligned (move r dx dy d w) := by
  unfold move
  split
  · exact hw
  · obtain ⟨h1, h2, h3, h4⟩ := hw
    refine ⟨h1, h2, ?_, h4⟩
    intro c hc
    simp only [List.mem_append, List.mem_singleton] at hc
    rcases hc with hc | hc
    · exact h3 c hc
    · subst hc
      exact ⟨dvd_add hr.1 (dvd_mul_left _ _), dvd_add hr.2 (dvd_mul_left _ _)⟩

theorem aligned_setDialog (v : Option String) (w : World) (hw : Aligned w) :
    Aligned (setDialog v w) := hw

theorem aligned_navigate (route : String) (w : World) (hw : Aligned w) :
    Aligned (navigate route w) := hw

theorem aligned_npcCheck (r : State) (w : World) (hw : Aligned w) : Aligned (npcCheck r w) := by
  simp only [npcCheck, npcs, List.foldl]
  split_ifs <;> exact hw

theorem aligned_interact (r : State) (w : World) (hw : Aligned w) : Aligned (interact r w) := by
  simp only [interact]
  apply aligned_npcCheck
  split_ifs <;> exact hw

theorem aligned_onKey (r : State) (key : String) (w : World)
    (hr : TileAligned r.pos) (hw : Aligned w) : Aligned (onKey r key w) := by
  simp only [onKey]
  have m : ∀ dx dy d v, Aligned v → Aligned (move r dx dy d v) :=
    fun dx dy d v hv => aligned_move r dx dy d v hr hv
  have a1 : Aligned (if key = "ArrowUp" then move r 0 (-1) Dir.up w else w) := by
    split_ifs; exacts [m _ _ _ _ hw, hw]
  have a2 := fun v (hv : Aligned v) =>
    show Aligned (if key = "ArrowDown" then move r 0 1 Dir.down v else v) by
      split_ifs; exacts [m _ _ _ _ hv, hv]
  have a3 := fun v (hv : Aligned v) =>
    show Aligned (if key = "ArrowLeft" then move r (-1) 0 Dir.left v else v) by
      split_ifs; exacts [m _ _ _ _ hv, hv]
  have a4 := fun v (hv : Aligned v) =>
    show Aligned (if key = "ArrowRight" then move r 1 0 Dir.right v else v) by
      split_ifs; exacts [m _ _ _ _ hv, hv]
  have a5 := fun v (hv : Aligned v) =>
    show Aligned (if key = "Enter" then interact r v else v) by
      split_ifs; exacts [aligned_interact r v hv, hv]
  have a6 := fun v (hv : Aligned v) =>
    show Aligned (if key = "Escape" then setDialog none v else v) by
      split_ifs; exacts [aligned_setDialog _ v hv, hv]
  exact a6 _ (a5 _ (a4 _ (a3 _ (a2 _ a1))))

theorem aligned_step (e : Event) (w w1 : World) (hw : Aligned w) (h : step e w = some w1) :
    Aligned w1 := by
  cases e with
  | keydown key =>
      simp only [step, Option.some.injEq] at h
      subst h
      exact aligned_onKey _ _ _ hw.2.1 hw
  | clickBuilding i fuel =>
      simp only [step] at h
      split at h
      · exact absurd h (by simp)
      · rename_i bx bY route _
        unfold goToBuilding at h
        split at h
        · exact absurd h (by simp)
        · simp only [Option.some.injEq] at h
          subst h
          obtain ⟨h1, h2, h3, h4⟩ := hw
          refine ⟨h1, h2, h3, ?_⟩
          intro k hk
          simp only [List.mem_append, List.mem_singleton] at hk
          rcases hk with hk | hk
          · exact h4 k hk
          · subst hk; exact h1
        · rename_i s rest _
          simp only [Option.some.injEq] at h
          subst h
          have hm := aligned_move w.store s.dx s.dy s.direction w hw.1 hw
          obtain ⟨h1, h2, h3, _⟩ := hm
          refine ⟨h1, h2, h3, ?_⟩
          intro k hk
          simp only [List.mem_append, List.mem_singleton] at hk
          rcases hk with hk | hk
          · exact hw.2.2.2 k hk
          · subst hk; exact hw.1
  | clickNpc i =>
      simp only [step] at h
      split at h
      · exact absurd h (by simp)
      · simp only [Option.some.injEq] at h
        subst h
        exact aligned_setDialog _ _ hw
  | interval =>
      simp only [step] at h
      split at h
      · exact absurd h (by simp)
      · simp only [Option.some.injEq] at h
        subst h
        exact hw
  | timeout batched =>
      simp only [step] at h
      split at h
      · exact absurd h (by simp)
      · rename_i c rest hp
        simp only [Option.some.injEq] at h
        subst h
        obtain ⟨h1, h2, h3, h4⟩ := hw
        have hc : TILE ∣ c.newX ∧ TILE ∣ c.newY := h3 c (by rw [hp]; exact List.mem_cons_self _ _)
        refine ⟨hc, ?_, ?_, h4⟩
        · cases batched <;> exact hc
        · intro c1 hc1
          exact h3 c1 (by rw [hp]; exact List.mem_cons_of_mem _ hc1)
  | resume j =>
      simp only [step] at h
      split at h
      · exact absurd h (by simp)
      · rename_i k hk
        have hkmem : k ∈ w.walks := List.get?_mem hk
        have hkr : TileAligned k.render.pos := hw.2.2.2 k hkmem
        unfold walkResume at h
        cases hs : k.steps with
        | nil =>
            simp only [hs, navigate, Option.some.injEq] at h
            subst h
            obtain ⟨h1, h2, h3, h4⟩ := hw
            refine ⟨h1, h2, h3, ?_⟩
            intro k1 hk1
            exact h4 k1 (List.mem_of_mem_eraseIdx hk1)
        | cons s rest =>
            simp only [hs, Option.some.injEq] at h
            subst h
            have hm := aligned_move k.render s.dx s.dy s.direction w hkr hw
            obtain ⟨h1, h2, h3, h4⟩ := hm
            refine ⟨h1, h2, h3, ?_⟩
            intro k1 hk1
            rcases List.mem_or_eq_of_mem_set hk1 with hk2 | hk2
            · exact h4 k1 hk2
            · subst hk2; exact hkr

theorem aligned_runEvents : ∀ (es : List Event) (w w1 : World),
    Aligned w → runEvents es w = some w1 → Aligned w1 := by
  intro es
  induction es with
  | nil =>
      intro w w1 hw h
      simp only [runEvents, Option.some.injEq] at h
      subst h; exact hw
  | cons e es ih =>
      intro w w1 hw h
      simp only [runEvents] at h
      split at h
      · exact absurd h (by simp)
      · rename_i w2 hs
        exact ih w2 w1 (aligned_step e w w2 hw hs) h

/-! ## One pass of the loop -/

theorem loopBody_int_decreases (tx ty c d : Int) (acc : List Step) (h : c ≠ tx ∨ d ≠ ty) :
    ∃ (c1 d1 : Int) (st : Step),
      loopBody (tx : ℚ) (ty : ℚ) ⟨(c : ℚ), (d : ℚ), acc⟩ = ⟨(c1 : ℚ), (d1 : ℚ), acc ++ [st]⟩ ∧
      (tx - c1).natAbs + (ty - d1).natAbs + 1 = (tx - c).natAbs + (ty - d).natAbs := by
  rw [loopBody_int]
  by_cases h1 : c < tx
  · exact ⟨c + 1, d, _, by rw [if_pos h1], by omega⟩
  · by_cases h2 : tx < c
    · exact ⟨c - 1, d, _, by rw [if_neg h1, if_pos h2], by omega⟩
    · by_cases h3 : d < ty
      · exact ⟨c, d + 1, _, by rw [if_neg h1, if_neg h2, if_pos h3], by omega⟩
      · have h4 : ty < d := by omega
        exact ⟨c, d - 1, _, by rw [if_neg h1, if_neg h2, if_neg h3, if_pos h4], by omega⟩

theorem iterate_loopBody_int (tx ty a b : Int) :
    ∀ k : Nat, k ≤ (tx - a).natAbs + (ty - b).natAbs →
      ∃ (c d : Int) (acc : List Step),
        (loopBody (tx : ℚ) (ty : ℚ))^[k] ⟨(a : ℚ), (b : ℚ), []⟩ = ⟨(c : ℚ), (d : ℚ), acc⟩ ∧
        (tx - c).natAbs + (ty - d).natAbs + k = (tx - a).natAbs + (ty - b).natAbs ∧
        acc.length = k := by
  intro k
  induction k with
  | zero => intro _; exact ⟨a, b, [], rfl, by omega, rfl⟩
  | succ n ih =>
      intro hk
      obtain ⟨c, d, acc, e, hd, hl⟩ := ih (by omega)
      have hne : c ≠ tx ∨ d ≠ ty := by omega
      obtain ⟨c1, d1, st, e1, hd1⟩ := loopBody_int_decreases tx ty c d acc hne
      refine ⟨c1, d1, acc ++ [st], ?_, by omega, by simp [hl]⟩
      rw [Function.iterate_succ_apply', e, e1]

theorem abs_cast_sub (t c : Int) : |(t : ℚ) - (c : ℚ)| = (((t - c).natAbs : Nat) : ℚ) := by
  rw [← Int.cast_sub, Nat.cast_natAbs, Int.cast_abs]

theorem tile_coord (x a : Int) (h : x = a * TILE) : (x : ℚ) / (TILE : ℚ) = (a : ℚ) := by
  rw [h]; simp only [TILE]; push_cast; field_simp

/-- C4: from a tile-aligned start tile `(a, b)`, with target tile
`(tx, ty) = (bx, by - 1)`, the step list built by `goToBuilding` is `|tx - a|`
horizontal steps pointing toward `tx` followed by `|ty - b|` vertical steps
pointing toward `ty`; so it has `|tx - a| + |ty - b|` entries, every
horizontal step precedes every vertical one, no entry is diagonal, and the
step deltas sum to `(tx - a, ty - b)`. -/
theorem C4_steps_manhattan (r : State) (a b bx bY : Int) (fuel : Nat)
    (hx : r.pos.x = a * TILE) (hy : r.pos.y = b * TILE)
    (hf : (bx - a).natAbs + (bY - 1 - b).natAbs ≤ fuel) :
    ∃ steps : List Step,
      buildSteps r bx bY fuel = some steps ∧
      steps =
        List.replicate (bx - a).natAbs
            (if a < bx then (⟨1, 0, Dir.right⟩ : Step) else ⟨-1, 0, Dir.left⟩) ++
          List.replicate (bY - 1 - b).natAbs
            (if b < bY - 1 then (⟨0, 1, Dir.down⟩ : Step) else ⟨0, -1, Dir.up⟩) ∧
      steps.length = (bx - a).natAbs + (bY - 1 - b).natAbs ∧
      (∀ st ∈ steps, (st.dx = 0 ∧ (st.dy = 1 ∨ st.dy = -1)) ∨ (st.dy = 0 ∧ (st.dx = 1 ∨ st.dx = -1))) ∧
      (steps.map Step.dx).sum = bx - a ∧
      (steps.map Step.dy).sum = bY - 1 - b := by
  refine ⟨_, buildSteps_aligned r a b bx bY fuel hx hy hf, rfl, by simp, ?_, ?_, ?_⟩
  · intro st hst
    simp only [List.mem_append, List.mem_replicate] at hst
    rcases hst with ⟨_, h⟩ | ⟨_, h⟩
    · subst h; right; split_ifs <;> simp
    · subst h; left; split_ifs <;> simp
  · simp only [List.map_append, List.map_replicate, List.sum_append, List.sum_replicate,
      nsmul_eq_mul]
    split_ifs <;> simp only [mul_one, mul_zero, add_zero, zero_add, mul_neg] <;> omega
  · simp only [List.map_append, List.map_replicate, List.sum_append, List.sum_replicate,
      nsmul_eq_mul]
    split_ifs <;> simp only [mul_one, mul_zero, add_zero, zero_add, mul_neg] <;> omega

/-- C4 at the start tile (5,6) and the first button: three steps left, then
four steps up. -/
theorem C4_steps_manhattan_witness :
    initialState.pos.x = 5 * TILE ∧ initialState.pos.y = 6 * TILE ∧
      ((2 : Int) - 5).natAbs + ((3 : Int) - 1 - 6).natAbs ≤ 7 ∧
      ∃ steps : List Step,
        buildSteps initialState 2 3 7 = some steps ∧
        steps =
          List.replicate ((2 : Int) - 5).natAbs
              (if (5 : Int) < 2 then (⟨1, 0, Dir.right⟩ : Step) else ⟨-1, 0, Dir.left⟩) ++
            List.replicate ((3 : Int) - 1 - 6).natAbs
              (if (6 : Int) < 3 - 1 then (⟨0, 1, Dir.down⟩ : Step) else ⟨0, -1, Dir.up⟩) ∧
        steps.length = ((2 : Int) - 5).natAbs + ((3 : Int) - 1 - 6).natAbs ∧
        (∀ st ∈ steps, (st.dx = 0 ∧ (st.dy = 1 ∨ st.dy = -1)) ∨ (st.dy = 0 ∧ (st.dx = 1 ∨ st.dx = -1))) ∧
        (steps.map Step.dx).sum = 2 - 5 ∧
        (steps.map Step.dy).sum = 3 - 1 - 6 :=
  ⟨by decide, by decide, by decide,
    C4_steps_manhattan initialState 5 6 2 3 7 (by decide) (by decide) (by decide)⟩

/-- C9: from a tile-aligned start tile `(a, b)` and integer building
coordinates, the path-building loop of `goToBuilding` terminates: with
`D = |tx - a| + |ty - b|`, the loop test holds before each of the first `D`
passes, each of them pushes exactly one step (one branch taken) and lowers
the Manhattan distance to the target tile by exactly one, the test fails
after `D` passes, and so `goToBuilding` gets a finite step list and goes on
to execute it. -/
theorem C9_path_loop_terminates (r : State) (a b bx bY : Int) (route : String) (w : World)
    (hx : r.pos.x = a * TILE) (hy : r.pos.y = b * TILE) :
    (∀ k : Nat, k < (bx - a).natAbs + (bY - 1 - b).natAbs →
        loopCond (bx : ℚ) ((bY : ℚ) - 1)
            ((loopBody (bx : ℚ) ((bY : ℚ) - 1))^[k]
              ⟨(r.pos.x : ℚ) / (TILE : ℚ), (r.pos.y : ℚ) / (TILE : ℚ), []⟩) = true ∧
        ((loopBody (bx : ℚ) ((bY : ℚ) - 1))^[k + 1]
              ⟨(r.pos.x : ℚ) / (TILE : ℚ), (r.pos.y : ℚ) / (TILE : ℚ), []⟩).steps.length =
          ((loopBody (bx : ℚ) ((bY : ℚ) - 1))^[k]
              ⟨(r.pos.x : ℚ) / (TILE : ℚ), (r.pos.y : ℚ) / (TILE : ℚ), []⟩).steps.length + 1 ∧
        |(bx : ℚ) - ((loopBody (bx : ℚ) ((bY : ℚ) - 1))^[k + 1]
              ⟨(r.pos.x : ℚ) / (TILE : ℚ), (r.pos.y : ℚ) / (TILE : ℚ), []⟩).cx| +
          |(bY : ℚ) - 1 - ((loopBody (bx : ℚ) ((bY : ℚ) - 1))^[k + 1]
              ⟨(r.pos.x : ℚ) / (TILE : ℚ), (r.pos.y : ℚ) / (TILE : ℚ), []⟩).cy| + 1 =
          |(bx : ℚ) - ((loopBody (bx : ℚ) ((bY : ℚ) - 1))^[k]
              ⟨(r.pos.x : ℚ) / (TILE : ℚ), (r.pos.y : ℚ) / (TILE : ℚ), []⟩).cx| +
          |(bY : ℚ) - 1 - ((loopBody (bx : ℚ) ((bY : ℚ) - 1))^[k]
              ⟨(r.pos.x : ℚ) / (TILE : ℚ), (r.pos.y : ℚ) / (TILE : ℚ), []⟩).cy|) ∧
    loopCond (bx : ℚ) ((bY : ℚ) - 1)
        ((loopBody (bx : ℚ) ((bY : ℚ) - 1))^[(bx - a).natAbs + (bY - 1 - b).natAbs]
          ⟨(r.pos.x : ℚ) / (TILE : ℚ), (r.pos.y : ℚ) / (TILE : ℚ), []⟩) = false ∧
    (∀ fuel : Nat, (bx - a).natAbs + (bY - 1 - b).natAbs ≤ fuel →
        (buildSteps r bx bY fuel).isSome = true ∧
        (goToBuilding r bx bY route fuel w).isSome = true) := by
  have et : (bY : ℚ) - 1 = ((bY - 1 : Int) : ℚ) := by push_cast; ring
  rw [tile_coord _ a hx, tile_coord _ b hy, et]
  refine ⟨?_, ?_, ?_⟩
  · intro k hk
    obtain ⟨c, d, acc, e, hd, hl⟩ := iterate_loopBody_int bx (bY - 1) a b k (le_of_lt hk)
    have hne : c ≠ bx ∨ d ≠ bY - 1 := by omega
    obtain ⟨c1, d1, st, e1, hd1⟩ := loopBody_int_decreases bx (bY - 1) c d acc hne
    rw [Function.iterate_succ_apply', e, e1]
    refine ⟨(loopCond_int bx (bY - 1) c d acc).2 hne, by simp, ?_⟩
    simp only [abs_cast_sub]
    exact_mod_cast hd1
  · obtain ⟨c, d, acc, e, hd, _⟩ := iterate_loopBody_int bx (bY - 1) a b _ (le_refl _)
    have hc : c = bx := by omega
    have hdd : d = bY - 1 := by omega
    rw [e, hc, hdd]
    simp [loopCond]
  · intro fuel hf
    have hb := buildSteps_aligned r a b bx bY fuel hx hy hf
    refine ⟨by rw [hb]; rfl, ?_⟩
    unfold goToBuilding
    rw [hb]
    split <;> simp_all

/-- C9 at the start tile (5,6) and the first button: the loop test fails after
seven passes and `goToBuilding` returns with bound seven. -/
theorem C9_path_loop_terminates_witness :
    initialState.pos.x = 5 * TILE ∧ initialState.pos.y = 6 * TILE ∧
      loopCond ((2 : Int) : ℚ) (((3 : Int) : ℚ) - 1)
          ((loopBody ((2 : Int) : ℚ) (((3 : Int) : ℚ) - 1))^[((2 : Int) - 5).natAbs + ((3 : Int) - 1 - 6).natAbs]
            ⟨(initialState.pos.x : ℚ) / (TILE : ℚ), (initialState.pos.y : ℚ) / (TILE : ℚ), []⟩) = false ∧
      (goToBuilding initialState 2 3 "/building-1" 7 initialWorld).isSome = true :=
  ⟨by decide, by decide,
    (C9_path_loop_terminates initialState 5 6 2 3 "/building-1" initialWorld (by decide) (by decide)).2.1,
    ((C9_path_loop_terminates initialState 5 6 2 3 "/building-1" initialWorld (by decide) (by decide)).2.2
      7 (by decide)).2⟩

/-- C8: in every state reached from the initial state by any sequence of
events (key presses for moves, interaction and dismissal, timeouts of steps,
animation ticks, clicks on buildings and NPCs, resumptions of autowalk
runs), both coordinates of Position are integer multiples of `TILE = 48`. -/
theorem C8_position_tile_aligned (es : List Event) (w : World)
    (h : runEvents es initialWorld = some w) :
    (48 : Int) ∣ w.store.pos.x ∧ (48 : Int) ∣ w.store.pos.y :=
  (aligned_runEvents es initialWorld w aligned_initialWorld h).1

/-- C8 after one step up from the initial state. -/
theorem C8_position_tile_aligned_witness :
    runEvents [Event.keydown "ArrowUp", Event.timeout true] initialWorld =
        some
          { store := { pos := ⟨240, 240⟩, dir := Dir.up, frame := 0, moving := false, dialog := none }
            keyRender := { pos := ⟨240, 240⟩, dir := Dir.up, frame := 0, moving := false, dialog := none }
            pending := [], walks := [], navs := [] } ∧
      (48 : Int) ∣ (240 : Int) ∧ (48 : Int) ∣ (240 : Int) :=
  ⟨by decide,
    C8_position_tile_aligned [Event.keydown "ArrowUp", Event.timeout true]
      { store := { pos := ⟨240, 240⟩, dir := Dir.up, frame := 0, moving := false, dialog := none }
        keyRender := { pos := ⟨240, 240⟩, dir := Dir.up, frame := 0, moving := false, dialog := none }
        pending := [], walks := [], navs := [] }
      (by decide)⟩

/-! ## The Enter branch -/

theorem onKey_enter (r : State) (w : World) : onKey r "Enter" w = interact r w := by
  simp [onKey]

theorem door_test (x k : Int) : (x : ℚ) / (TILE : ℚ) = (k : ℚ) ↔ x = k * TILE := by
  simp only [TILE]
  constructor
  · intro h
    have h1 : (x : ℚ) = (k : ℚ) * 48 := by
      field_simp at h
      linarith
    exact_mod_cast h1
  · intro h
    rw [h]; push_cast; field_simp

theorem npcCheck_navs (r : State) (w : World) : (npcCheck r w).navs = w.navs := by
  simp only [npcCheck, npcs, List.foldl, setDialog]
  split_ifs <;> rfl

theorem npcCheck_dialog (r : State) (w : World) :
    (npcCheck r w).store.dialog =
      if |r.pos.x - 9 * TILE| ≤ TILE ∧ |r.pos.y - 4 * TILE| ≤ TILE then
        some "The market opens at dawn."
      else if |r.pos.x - 4 * TILE| ≤ TILE ∧ |r.pos.y - 3 * TILE| ≤ TILE then
        some "Hello traveler! Welcome."
      else w.store.dialog := by
  simp only [npcCheck, npcs, List.foldl, setDialog]
  split_ifs <;> rfl

theorem interact_navs (r : State) (w : World) :
    (interact r w).navs =
      w.navs ++
        (if r.pos.x = 2 * TILE ∧ r.pos.y = 3 * TILE then ["/building-1"]
         else if r.pos.x = 8 * TILE ∧ r.pos.y = 3 * TILE then ["/building-2"]
         else if r.pos.x = 2 * TILE ∧ r.pos.y = 9 * TILE then ["/building-3"]
         else if r.pos.x = 8 * TILE ∧ r.pos.y = 9 * TILE then ["/building-4"]
         else []) := by
  have e2 := door_test r.pos.x 2
  have e8 := door_test r.pos.x 8
  have e3 := door_test r.pos.y 3
  have e9 := door_test r.pos.y 9
  push_cast at e2 e8 e3 e9
  simp only [interact, npcCheck_navs, e2, e8, e3, e9, navigate]
  simp only [TILE]
  split_ifs <;> first | rfl | (simp; done) | (exfalso; omega)

theorem interact_dialog (r : State) (w : World) :
    (interact r w).store.dialog = (npcCheck r w).store.dialog := by
  simp only [interact, npcCheck, npcs, List.foldl, setDialog, navigate]
  split_ifs <;> rfl

/-- C5: whatever the position, the Enter handler makes exactly one `navigate`
call, to "/building-1", "/building-2", "/building-3" or "/building-4", when
the current tile is (2,3), (8,3), (2,9) or (8,9) respectively, and makes no
`navigate` call at any other position. -/
theorem C5_enter_navigates_at_doors (r : State) (w : World) :
    (onKey r "Enter" w).navs =
      w.navs ++
        (if r.pos.x = 2 * TILE ∧ r.pos.y = 3 * TILE then ["/building-1"]
         else if r.pos.x = 8 * TILE ∧ r.pos.y = 3 * TILE then ["/building-2"]
         else if r.pos.x = 2 * TILE ∧ r.pos.y = 9 * TILE then ["/building-3"]
         else if r.pos.x = 8 * TILE ∧ r.pos.y = 9 * TILE then ["/building-4"]
         else []) := by
  rw [onKey_enter, interact_navs]

/-- C6: after the Enter handler, DialogueState is the text of the last NPC of
the `npcs` array (n1, then n2) with `|pos.x - n.x| ≤ TILE` and
`|pos.y - n.y| ≤ TILE`, and is unchanged when there is none; in range of n2
it is n2's text, in range of n1 only it is n1's text.  (The two ranges do not
overlap, so "in range of both" does not occur.) -/
theorem C6_enter_sets_dialogue (r : State) (w : World) :
    ((onKey r "Enter" w).store.dialog =
        match (npcs.filter
            (fun n => decide (|r.pos.x - n.x| ≤ TILE ∧ |r.pos.y - n.y| ≤ TILE))).getLast? with
        | some n => some n.text
        | none => w.store.dialog) ∧
      ((onKey r "Enter" w).store.dialog =
        if |r.pos.x - 9 * TILE| ≤ TILE ∧ |r.pos.y - 4 * TILE| ≤ TILE then
          some "The market opens at dawn."
        else if |r.pos.x - 4 * TILE| ≤ TILE ∧ |r.pos.y - 3 * TILE| ≤ TILE then
          some "Hello traveler! Welcome."
        else w.store.dialog) ∧
      ¬ ((|r.pos.x - 4 * TILE| ≤ TILE ∧ |r.pos.y - 3 * TILE| ≤ TILE) ∧
          (|r.pos.x - 9 * TILE| ≤ TILE ∧ |r.pos.y - 4 * TILE| ≤ TILE)) := by
  rw [onKey_enter, interact_dialog, npcCheck_dialog]
  refine ⟨?_, rfl, ?_⟩
  · by_cases h2 : |r.pos.x - 9 * TILE| ≤ TILE ∧ |r.pos.y - 4 * TILE| ≤ TILE
    · by_cases h1 : |r.pos.x - 4 * TILE| ≤ TILE ∧ |r.pos.y - 3 * TILE| ≤ TILE
      · simp [npcs, List.filter, h1, h2]
      · simp [npcs, List.filter, h1, h2]
    · by_cases h1 : |r.pos.x - 4 * TILE| ≤ TILE ∧ |r.pos.y - 3 * TILE| ≤ TILE
      · simp [npcs, List.filter, h1, h2]
      · simp [npcs, List.filter, h1, h2]
  · simp only [TILE, abs_le]
    omega

/-- C7, as stated, fails at the door tile (8,3): there the player is within
one tile per axis of NPC n2 at (9,4), and one Enter press both navigates to
"/building-2" and sets DialogueState to n2's text. -/
theorem C7_counterexample :
    (|(8 * TILE : Int) - 9 * TILE| ≤ TILE ∧ |(3 * TILE : Int) - 4 * TILE| ≤ TILE) ∧
      (onKey { initialState with pos := ⟨8 * TILE, 3 * TILE⟩ } "Enter" initialWorld).navs =
        ["/building-2"] ∧
      initialWorld.store.dialog = none ∧
      (onKey { initialState with pos := ⟨8 * TILE, 3 * TILE⟩ } "Enter" initialWorld).store.dialog =
        some "The market opens at dawn." := by
  refine ⟨by decide, ?_, rfl, ?_⟩
  · rw [onKey_enter, interact_navs]; simp [TILE, initialWorld]
  · rw [onKey_enter, interact_dialog, npcCheck_dialog]; simp [TILE]

/-- C7 amended: at the door tiles (2,3), (2,9) and (8,9) the player is within
one tile (per axis, inclusive) of neither NPC, and Enter there navigates and
leaves DialogueState as it was; at the door tile (8,3) the player is within
one tile of n2 at (9,4) and not of n1 at (4,3), and Enter there both
navigates to "/building-2" and sets DialogueState to n2's text. -/
theorem C7_doors_and_npc_range (s : State) (w : World) :
    ((onKey { s with pos := ⟨2 * TILE, 3 * TILE⟩ } "Enter" w).navs = w.navs ++ ["/building-1"] ∧
      (onKey { s with pos := ⟨2 * TILE, 3 * TILE⟩ } "Enter" w).store.dialog = w.store.dialog) ∧
    ((onKey { s with pos := ⟨2 * TILE, 9 * TILE⟩ } "Enter" w).navs = w.navs ++ ["/building-3"] ∧
      (onKey { s with pos := ⟨2 * TILE, 9 * TILE⟩ } "Enter" w).store.dialog = w.store.dialog) ∧
    ((onKey { s with pos := ⟨8 * TILE, 9 * TILE⟩ } "Enter" w).navs = w.navs ++ ["/building-4"] ∧
      (onKey { s with pos := ⟨8 * TILE, 9 * TILE⟩ } "Enter" w).store.dialog = w.store.dialog) ∧
    ((onKey { s with pos := ⟨8 * TILE, 3 * TILE⟩ } "Enter" w).navs = w.navs ++ ["/building-2"] ∧
      (onKey { s with pos := ⟨8 * TILE, 3 * TILE⟩ } "Enter" w).store.dialog =
        some "The market opens at dawn.") ∧
    (∀ n ∈ npcs, ∀ door ∈ [((2 : Int), (3 : Int)), (2, 9), (8, 9)],
      ¬ (|door.1 * TILE - n.x| ≤ TILE ∧ |door.2 * TILE - n.y| ≤ TILE)) ∧
    ¬ (|(8 * TILE : Int) - 4 * TILE| ≤ TILE ∧ |(3 * TILE : Int) - 3 * TILE| ≤ TILE) ∧
    (|(8 * TILE : Int) - 9 * TILE| ≤ TILE ∧ |(3 * TILE : Int) - 4 * TILE| ≤ TILE) := by
  simp only [onKey_enter, interact_navs, interact_dialog, npcCheck_dialog]
  refine ⟨?_, ?_, ?_, ?_, ?_, by decide, by decide⟩
  · simp [TILE]
  · simp [TILE]
  · simp [TILE]
  · simp [TILE]
  · decide

/-- For each building button `goToBuilding(bx, by, route)`: the loop ends at
tile `(bx, by - 1)`; Enter pressed at that tile makes no `navigate` call;
Enter navigates to `route` at exactly the position of tile `(bx, by)`. -/
theorem enter_at_walk_target (bx bY : Int) (route : String)
    (hb : (bx, bY, route) ∈ buildingButtons) :
    (∀ (a b : Int) (fuel : Nat), (bx - a).natAbs + (bY - 1 - b).natAbs ≤ fuel →
        (whileLoop (bx : ℚ) ((bY : ℚ) - 1) fuel ⟨(a : ℚ), (b : ℚ), []⟩).map
            (fun st => (st.cx, st.cy)) = some ((bx : ℚ), (bY : ℚ) - 1)) ∧
      (∀ (s : State) (w : World),
        (onKey { s with pos := ⟨bx * TILE, (bY - 1) * TILE⟩ } "Enter" w).navs = w.navs) ∧
      (∀ (r : State) (w : World),
        (onKey r "Enter" w).navs = w.navs ++ [route] ↔
          (r.pos.x = bx * TILE ∧ r.pos.y = (bY - 1) * TILE + TILE)) := by
  refine ⟨?_, ?_, ?_⟩
  · intro a b fuel hf
    have et : (bY : ℚ) - 1 = ((bY - 1 : Int) : ℚ) := by push_cast; ring
    rw [et, whileLoop_int bx (bY - 1) fuel a b [] hf]
    rfl
  · intro s w
    rw [onKey_enter, interact_navs]
    simp only [buildingButtons, List.mem_cons, Prod.mk.injEq, List.mem_singleton,
      List.not_mem_nil, or_false] at hb
    rcases hb with ⟨h1, h2, _⟩ | ⟨h1, h2, _⟩ | ⟨h1, h2, _⟩ | ⟨h1, h2, _⟩ <;>
      subst h1 <;> subst h2 <;> simp [TILE]
  · intro r w
    rw [onKey_enter, interact_navs, List.append_right_inj]
    simp only [buildingButtons, List.mem_cons, Prod.mk.injEq, List.mem_singleton,
      List.not_mem_nil, or_false] at hb
    simp only [TILE]
    rcases hb with ⟨h1, h2, h3⟩ | ⟨h1, h2, h3⟩ | ⟨h1, h2, h3⟩ | ⟨h1, h2, h3⟩ <;>
      subst h1 <;> subst h2 <;> subst h3 <;>
      split_ifs <;> simp <;> omega

/-! ## A single step -/

theorem animTick_iterate_pos (n : Nat) (s : State) :
    (animTick^[n] s).pos = s.pos ∧ (animTick^[n] s).dir = s.dir ∧
      (animTick^[n] s).moving = s.moving := by
  induction n generalizing s with
  | zero => exact ⟨rfl, rfl, rfl⟩
  | succ n ih =>
      rw [Function.iterate_succ_apply]
      exact ih (animTick s)

theorem move_keyRender_pos (r : State) (dx dy : Int) (d : Dir) (v : World) :
    (move r dx dy d v).keyRender = v.keyRender ∧ (move r dx dy d v).store.pos = v.store.pos := by
  unfold move
  split <;> exact ⟨rfl, rfl⟩

theorem npcCheck_keyRender_pos (r : State) (v : World) :
    (npcCheck r v).keyRender = v.keyRender ∧ (npcCheck r v).store.pos = v.store.pos := by
  simp only [npcCheck, npcs, List.foldl, setDialog]
  split_ifs <;> exact ⟨rfl, rfl⟩

theorem interact_keyRender_pos (r : State) (v : World) :
    (interact r v).keyRender = v.keyRender ∧ (interact r v).store.pos = v.store.pos := by
  simp only [interact]
  rw [(npcCheck_keyRender_pos r _).1, (npcCheck_keyRender_pos r _).2]
  split_ifs <;> exact ⟨rfl, rfl⟩

theorem onKey_keyRender_pos (r : State) (key : String) (w : World) :
    (onKey r key w).keyRender = w.keyRender ∧ (onKey r key w).store.pos = w.store.pos := by
  simp only [onKey]
  have m : ∀ dx dy d (v : World),
      (v.keyRender = w.keyRender ∧ v.store.pos = w.store.pos) →
      ((move r dx dy d v).keyRender = w.keyRender ∧ (move r dx dy d v).store.pos = w.store.pos) :=
    fun dx dy d v hv => by
      rw [(move_keyRender_pos r dx dy d v).1, (move_keyRender_pos r dx dy d v).2]; exact hv
  have a1 : (if key = "ArrowUp" then move r 0 (-1) Dir.up w else w).keyRender = w.keyRender ∧
      (if key = "ArrowUp" then move r 0 (-1) Dir.up w else w).store.pos = w.store.pos := by
    split_ifs; exacts [m _ _ _ _ ⟨rfl, rfl⟩, ⟨rfl, rfl⟩]
  have a2 := fun (v : World) (hv : v.keyRender = w.keyRender ∧ v.store.pos = w.store.pos) =>
    show (if key = "ArrowDown" then move r 0 1 Dir.down v else v).keyRender = w.keyRender ∧
        (if key = "ArrowDown" then move r 0 1 Dir.down v else v).store.pos = w.store.pos by
      split_ifs; exacts [m _ _ _ _ hv, hv]
  have a3 := fun (v : World) (hv : v.keyRender = w.keyRender ∧ v.store.pos = w.store.pos) =>
    show (if key = "ArrowLeft" then move r (-1) 0 Dir.left v else v).keyRender = w.keyRender ∧
        (if key = "ArrowLeft" then move r (-1) 0 Dir.left v else v).store.pos = w.store.pos by
      split_ifs; exacts [m _ _ _ _ hv, hv]
  have a4 := fun (v : World) (hv : v.keyRender = w.keyRender ∧ v.store.pos = w.store.pos) =>
    show (if key = "ArrowRight" then move r 1 0 Dir.right v else v).keyRender = w.keyRender ∧
        (if key = "ArrowRight" then move r 1 0 Dir.right v else v).store.pos = w.store.pos by
      split_ifs; exacts [m _ _ _ _ hv, hv]
  have a5 := fun (v : World) (hv : v.keyRender = w.keyRender ∧ v.store.pos = w.store.pos) =>
    show (if key = "Enter" then interact r v else v).keyRender = w.keyRender ∧
        (if key = "Enter" then interact r v else v).store.pos = w.store.pos by
      split_ifs
      · rw [(interact_keyRender_pos r v).1, (interact_keyRender_pos r v).2]; exact hv
      · exact hv
  have a6 := fun (v : World) (hv : v.keyRender = w.keyRender ∧ v.store.pos = w.store.pos) =>
    show (if key = "Escape" then setDialog none v else v).keyRender = w.keyRender ∧
        (if key = "Escape" then setDialog none v else v).store.pos = w.store.pos by
      split_ifs; exacts [hv, hv]
  exact a6 _ (a5 _ (a4 _ (a3 _ (a2 _ a1))))

/-- With batched rendering of the timeout callback, the render of the
registered `keydown` listener agrees with the live cells on `pos` and has
`moving` false, in every world reached from the initial one. -/
theorem keyRender_of_batched : ∀ (es : List Event) (w w1 : World),
    Event.timeout false ∉ es →
    (w.keyRender.pos = w.store.pos ∧ w.keyRender.moving = false) →
    runEvents es w = some w1 →
    (w1.keyRender.pos = w1.store.pos ∧ w1.keyRender.moving = false) := by
  intro es
  induction es with
  | nil =>
      intro w w1 _ hw h
      simp only [runEvents, Option.some.injEq] at h
      subst h; exact hw
  | cons e es ih =>
      intro w w1 hb hw h
      simp only [runEvents] at h
      split at h
      · exact absurd h (by simp)
      · rename_i w2 hs
        have hb1 : Event.timeout false ∉ es := fun hm => hb (List.mem_cons_of_mem _ hm)
        have he : e ≠ Event.timeout false := fun hm => hb (by rw [hm]; exact List.mem_cons_self _ _)
        refine ih w2 w1 hb1 ?_ h
        have hmove := move_keyRender_pos
        cases e with
        | keydown key =>
            simp only [step, Option.some.injEq] at hs
            subst hs
            have hk := onKey_keyRender_pos w.keyRender key w
            rw [hk.1, hk.2]; exact hw
        | clickBuilding i fuel =>
            simp only [step] at hs
            split at hs
            · exact absurd hs (by simp)
            · unfold goToBuilding at hs
              split at hs
              · exact absurd hs (by simp)
              · simp only [Option.some.injEq] at hs
                subst hs; exact hw
              · rename_i st rest _
                simp only [Option.some.injEq] at hs
                subst hs
                have hm := hmove w.store st.dx st.dy st.direction w
                show (move w.store st.dx st.dy st.direction w).keyRender.pos =
                    (move w.store st.dx st.dy st.direction w).store.pos ∧
                  (move w.store st.dx st.dy st.direction w).keyRender.moving = false
                rw [hm.1, hm.2]; exact hw
        | clickNpc i =>
            simp only [step] at hs
            split at hs
            · exact absurd hs (by simp)
            · simp only [Option.some.injEq] at hs
              subst hs; exact hw
        | interval =>
            simp only [step] at hs
            split at hs
            · exact absurd hs (by simp)
            · simp only [Option.some.injEq] at hs
              subst hs; exact hw
        | timeout batched =>
            cases batched with
            | false => exact absurd rfl he
            | true =>
                simp only [step] at hs
                split at hs
                · exact absurd hs (by simp)
                · simp only [Option.some.injEq] at hs
                  subst hs
                  exact ⟨rfl, rfl⟩
        | resume j =>
            simp only [step] at hs
            split at hs
            · exact absurd hs (by simp)
            · rename_i k _
              unfold walkResume at hs
              cases hst : k.steps with
              | nil =>
                  simp only [hst, navigate, Option.some.injEq] at hs
                  subst hs; exact hw
              | cons st rest =>
                  simp only [hst, Option.some.injEq] at hs
                  subst hs
                  have hm := hmove k.render st.dx st.dy st.direction w
                  show (move k.render st.dx st.dy st.direction w).keyRender.pos =
                      (move k.render st.dx st.dy st.direction w).store.pos ∧
                    (move k.render st.dx st.dy st.direction w).keyRender.moving = false
                  rw [hm.1, hm.2]; exact hw

/-- A step requested through a handler whose render `r` shows the same `pos`
and `moving` as the live cells, with `moving` false: the arrow key of
direction `d` sets `moving` and `dir` and leaves `pos`; animation ticks leave
`pos`, `dir` and `moving`; the completion it schedules sets `pos` to the old
`pos` shifted by 48 in direction `d`, `frame` to 0 and `moving` to false. -/
theorem step_of_agreeing_render (d : Dir) (key : String) (sx sy : Int) (r : State) (w : World)
    (hk : (d, key, sx, sy) ∈
      [(Dir.up, "ArrowUp", (0 : Int), (-48 : Int)), (Dir.down, "ArrowDown", 0, 48),
       (Dir.left, "ArrowLeft", -48, 0), (Dir.right, "ArrowRight", 48, 0)])
    (hp : r.pos = w.store.pos) (hr : r.moving = w.store.moving)
    (hm : w.store.moving = false) :
    (onKey r key w).store.moving = true ∧
      (onKey r key w).store.dir = d ∧
      (onKey r key w).store.pos = w.store.pos ∧
      (∀ n : Nat,
        (animTick^[n] (onKey r key w).store).pos = w.store.pos ∧
        (animTick^[n] (onKey r key w).store).dir = d ∧
        (animTick^[n] (onKey r key w).store).moving = true) ∧
      (onKey r key w).pending =
        w.pending ++ [⟨w.store.pos.x + sx, w.store.pos.y + sy⟩] ∧
      (∀ live : State,
        (complete ⟨w.store.pos.x + sx, w.store.pos.y + sy⟩ live).pos =
            ⟨w.store.pos.x + sx, w.store.pos.y + sy⟩ ∧
        (complete ⟨w.store.pos.x + sx, w.store.pos.y + sy⟩ live).frame = 0 ∧
        (complete ⟨w.store.pos.x + sx, w.store.pos.y + sy⟩ live).moving = false) := by
  simp only [List.mem_cons, Prod.mk.injEq, List.mem_singleton, List.not_mem_nil, or_false] at hk
  rw [hm] at hr
  have key_fact : (onKey r key w).store.moving = true ∧
      (onKey r key w).store.dir = d ∧
      (onKey r key w).store.pos = w.store.pos ∧
      (onKey r key w).pending =
        w.pending ++ [⟨w.store.pos.x + sx, w.store.pos.y + sy⟩] := by
    rcases hk with ⟨h1, h2, h3, h4⟩ | ⟨h1, h2, h3, h4⟩ | ⟨h1, h2, h3, h4⟩ | ⟨h1, h2, h3, h4⟩ <;>
      subst h1 <;> subst h2 <;> subst h3 <;> subst h4 <;>
      simp [onKey, move, hr, hp, TILE]
  obtain ⟨k1, k2, k3, k4⟩ := key_fact
  refine ⟨k1, k2, k3, ?_, k4, ?_⟩
  · intro n
    obtain ⟨t1, t2, t3⟩ := animTick_iterate_pos n (onKey r key w).store
    exact ⟨t1.trans k3, t2.trans k2, t3.trans k1⟩
  · intro live
    exact ⟨rfl, rfl, rfl⟩

/-! ## Stale renders -/

/-- C1 at its own scenario.  From tile (5,6), `goToBuilding(2, 3, "/building-1")`
builds three left steps and four up steps; the undisturbed run (each `move`
followed by its timeout) makes one `navigate` call, to "/building-1", but
every `move` of the run is the one of the render of the click, whose `pos`
is still tile (5,6): Position ends at tile (5,5), not at tile (2,2). -/
theorem C1_autowalk_ends_off_target :
    buildSteps initialState 2 3 7 =
        some [⟨-1, 0, Dir.left⟩, ⟨-1, 0, Dir.left⟩, ⟨-1, 0, Dir.left⟩,
              ⟨0, -1, Dir.up⟩, ⟨0, -1, Dir.up⟩, ⟨0, -1, Dir.up⟩, ⟨0, -1, Dir.up⟩] ∧
      (runEvents
          [Event.clickBuilding 0 7,
           Event.timeout true, Event.resume 0, Event.timeout true, Event.resume 0,
           Event.timeout true, Event.resume 0, Event.timeout true, Event.resume 0,
           Event.timeout true, Event.resume 0, Event.timeout true, Event.resume 0,
           Event.timeout true, Event.resume 0]
          initialWorld).map
          (fun w => (w.store.pos, w.store.moving, w.pending, w.walks, w.navs)) =
        some (⟨5 * 48, 5 * 48⟩, false, [], [], ["/building-1"]) ∧
      (⟨5 * 48, 5 * 48⟩ : Pos) ≠ ⟨2 * 48, 2 * 48⟩ := by
  refine ⟨?_, ?_, by decide⟩
  · norm_num [buildSteps, whileLoop, loopBody, loopCond, initialState, TILE]
  · simp [runEvents, step, goToBuilding, walkResume, move, complete, navigate, buildingButtons]
    norm_num [buildSteps, whileLoop, loopBody, loopCond, initialWorld, initialState, TILE]

/-- C2 at the initial state.  After ArrowUp a step is in flight (MovingFlag
true), but the registered listener is still the one of the first render,
whose `moving` is false: a following ArrowLeft is not dropped.  It changes
Direction to left and schedules a second completion; once both have run,
Position is one tile left of the start instead of one tile up, which is what
the step in flight alone produces.  Likewise a `move` issued by an autowalk
run while a keyboard step is in flight is not dropped. -/
theorem C2_request_in_flight_not_dropped :
    (runEvents [Event.keydown "ArrowUp"] initialWorld).map
          (fun w => (w.store.moving, w.store.dir, w.pending)) =
        some (true, Dir.up, [⟨240, 240⟩]) ∧
      (runEvents [Event.keydown "ArrowUp", Event.keydown "ArrowLeft"] initialWorld).map
          (fun w => (w.store.moving, w.store.dir, w.pending)) =
        some (true, Dir.left, [⟨240, 240⟩, ⟨192, 288⟩]) ∧
      (runEvents [Event.keydown "ArrowUp", Event.timeout true] initialWorld).map
          (fun w => (w.store.pos, w.store.dir, w.store.moving)) =
        some (⟨240, 240⟩, Dir.up, false) ∧
      (runEvents
          [Event.keydown "ArrowUp", Event.keydown "ArrowLeft", Event.timeout true,
           Event.timeout true]
          initialWorld).map
          (fun w => (w.store.pos, w.store.dir, w.store.moving)) =
        some (⟨192, 288⟩, Dir.left, false) ∧
      (runEvents [Event.clickBuilding 0 7, Event.timeout true, Event.keydown "ArrowDown"]
          initialWorld).map
          (fun w => (w.store.moving, w.store.dir, w.pending)) =
        some (true, Dir.down, [⟨192, 336⟩]) ∧
      (runEvents
          [Event.clickBuilding 0 7, Event.timeout true, Event.keydown "ArrowDown",
           Event.resume 0]
          initialWorld).map
          (fun w => (w.store.moving, w.store.dir, w.pending)) =
        some (true, Dir.left, [⟨192, 336⟩, ⟨192, 288⟩]) := by
  refine ⟨by decide, by decide, by decide, by decide, ?_, ?_⟩
  · simp [runEvents, step, goToBuilding, walkResume, move, complete, navigate, buildingButtons,
      onKey]
    norm_num [buildSteps, whileLoop, loopBody, loopCond, initialWorld, initialState, TILE]
  · simp [runEvents, step, goToBuilding, walkResume, move, complete, navigate, buildingButtons,
      onKey]
    norm_num [buildSteps, whileLoop, loopBody, loopCond, initialWorld, initialState, TILE]

/-- C3 after the first step of an autowalk.  From the initial state, a click
on the first building and the completion of its first step give Position
(4*48, 6*48), MovingFlag false and nothing in flight.  The run's next request
`move(-1, 0, "left")` sets MovingFlag true and Direction left, but it is the
`move` of the render of the click, whose `pos` is still tile (5,6): at
completion Position is (4*48, 6*48) again, not shifted one tile left.  With
the keyboard, after ArrowUp and ArrowLeft in one step time and the first
completion, MovingFlag is false; ArrowRight is accepted, and Position jumps
to (4*48, 6*48) while that step is in flight. -/
theorem C3_request_does_not_shift_one_tile :
    (runEvents [Event.clickBuilding 0 7, Event.timeout true] initialWorld).map
          (fun w => (w.store.pos, w.store.moving, w.pending)) =
        some (⟨192, 288⟩, false, []) ∧
      (runEvents [Event.clickBuilding 0 7, Event.timeout true, Event.resume 0]
          initialWorld).map
          (fun w => (w.store.pos, w.store.dir, w.store.moving, w.pending)) =
        some (⟨192, 288⟩, Dir.left, true, [⟨192, 288⟩]) ∧
      (runEvents
          [Event.clickBuilding 0 7, Event.timeout true, Event.resume 0, Event.timeout true]
          initialWorld).map
          (fun w => (w.store.pos, w.store.frame, w.store.moving, w.pending)) =
        some (⟨192, 288⟩, 0, false, []) ∧
      (⟨192, 288⟩ : Pos) ≠ ⟨192 - 48, 288⟩ ∧
      (runEvents [Event.keydown "ArrowUp", Event.keydown "ArrowLeft", Event.timeout true]
          initialWorld).map
          (fun w => (w.store.pos, w.store.moving, w.pending)) =
        some (⟨240, 240⟩, false, [⟨192, 288⟩]) ∧
      (runEvents
          [Event.keydown "ArrowUp", Event.keydown "ArrowLeft", Event.timeout true,
           Event.keydown "ArrowRight"]
          initialWorld).map
          (fun w => (w.store.pos, w.store.dir, w.store.moving, w.pending)) =
        some (⟨240, 240⟩, Dir.right, true, [⟨192, 288⟩, ⟨288, 240⟩]) ∧
      (runEvents
          [Event.keydown "ArrowUp", Event.keydown "ArrowLeft", Event.timeout true,
           Event.keydown "ArrowRight", Event.timeout true]
          initialWorld).map
          (fun w => (w.store.pos, w.pending)) =
        some (⟨192, 288⟩, [⟨288, 240⟩]) := by
  refine ⟨?_, ?_, ?_, by decide, by decide, by decide, by decide⟩
  · simp [runEvents, step, goToBuilding, walkResume, move, complete, navigate, buildingButtons]
    norm_num [buildSteps, whileLoop, loopBody, loopCond, initialWorld, initialState, TILE]
  · simp [runEvents, step, goToBuilding, walkResume, move, complete, navigate, buildingButtons]
    norm_num [buildSteps, whileLoop, loopBody, loopCond, initialWorld, initialState, TILE]
  · simp [runEvents, step, goToBuilding, walkResume, move, complete, navigate, buildingButtons]
    norm_num [buildSteps, whileLoop, loopBody, loopCond, initialWorld, initialState, TILE]

/-- C10 from tile (2,4).  Three steps left and two steps up with the keyboard
bring the player from the initial tile (5,6) to tile (2,4).  There
`goToBuilding(2, 3, "/building-1")` builds two up steps, toward the target
tile (2,2) = (bx, by - 1); both are made by the `move` of the render of the
click, so both completions set Position to (2*48, 3*48): the autowalk stops
on tile (2,3), not on (2,2), and (2,3) is a tile at which Enter navigates
(to "/building-1"). -/
theorem C10_autowalk_stops_on_door_tile :
    (runEvents
          [Event.keydown "ArrowLeft", Event.timeout true, Event.keydown "ArrowLeft",
           Event.timeout true, Event.keydown "ArrowLeft", Event.timeout true,
           Event.keydown "ArrowUp", Event.timeout true, Event.keydown "ArrowUp",
           Event.timeout true]
          initialWorld) =
        some
          { store := { pos := ⟨2 * 48, 4 * 48⟩, dir := Dir.up, frame := 0, moving := false, dialog := none }
            keyRender := { pos := ⟨2 * 48, 4 * 48⟩, dir := Dir.up, frame := 0, moving := false, dialog := none }
            pending := [], walks := [], navs := [] } ∧
      buildSteps
          { pos := ⟨2 * 48, 4 * 48⟩, dir := Dir.up, frame := 0, moving := false, dialog := none }
          2 3 2 =
        some [⟨0, -1, Dir.up⟩, ⟨0, -1, Dir.up⟩] ∧
      (runEvents
          [Event.clickBuilding 0 2, Event.timeout true, Event.resume 0, Event.timeout true]
          { store := { pos := ⟨2 * 48, 4 * 48⟩, dir := Dir.up, frame := 0, moving := false, dialog := none }
            keyRender := { pos := ⟨2 * 48, 4 * 48⟩, dir := Dir.up, frame := 0, moving := false, dialog := none }
            pending := [], walks := [], navs := [] }).map
          (fun w => (w.store.pos, w.store.moving, w.pending, w.walks.map Walk.steps, w.navs)) =
        some (⟨2 * 48, 3 * 48⟩, false, [], [[]], []) ∧
      (⟨2 * 48, 3 * 48⟩ : Pos) ≠ ⟨2 * 48, (3 - 1) * 48⟩ ∧
      (runEvents
          [Event.clickBuilding 0 2, Event.timeout true, Event.resume 0, Event.timeout true,
           Event.keydown "Enter"]
          { store := { pos := ⟨2 * 48, 4 * 48⟩, dir := Dir.up, frame := 0, moving := false, dialog := none }
            keyRender := { pos := ⟨2 * 48, 4 * 48⟩, dir := Dir.up, frame := 0, moving := false, dialog := none }
            pending := [], walks := [], navs := [] }).map
          (fun w => (w.store.pos, w.navs)) =
        some (⟨2 * 48, 3 * 48⟩, ["/building-1"]) := by
  refine ⟨by decide, ?_, ?_, by decide, ?_⟩
  · norm_num [buildSteps, whileLoop, loopBody, loopCond, TILE]
  · simp [runEvents, step, goToBuilding, walkResume, move, complete, navigate, buildingButtons]
    norm_num [buildSteps, whileLoop, loopBody, loopCond, TILE]
  · simp [runEvents, step, goToBuilding, walkResume, move, complete, navigate, buildingButtons,
      onKey, interact, npcCheck, npcs, setDialog]
    norm_num [buildSteps, whileLoop, loopBody, loopCond, TILE]

end RpgGame
